import Mathlib

/-!
# Verification of the dora-tui protocol client and backend-abstraction layer

A shallow embedding, in Lean 4, of the core of the `dora-tui` repository:

* the SSE stream decoder `read_next_event`
  (`crates/dora-protocol-client/src/lib.rs`),
* base-URL normalization and the transport's `endpoint` join,
* the pure domain mappers (`map_metrics_to_ui`, `map_preferences_to_ui`,
  `map_preferences_to_protocol`, `describe_node_source`, `convert_metrics`),
* the remote legacy-command capability (`ProtocolLegacyCliService::execute`),
* the background metrics consumer spawned by `spawn_metrics_stream`
  (`binaries/tui/src/tui/bridge.rs`).

Rust `String` values are embedded as `List Char` (`Str`).  Rust `u64` is
embedded as `Nat` (the code performs only saturating subtraction, which on
in-range values coincides with truncated `Nat` subtraction).  Rust `f32`/`f64`
values are embedded as `Rat`: the code never performs float arithmetic on
them — it only copies them and widens `f32` to `f64` via `f64::from`, which is
exact, so the embedding `f64From := id` is faithful.  `DateTime<Utc>` and
`Instant` values are embedded as `Nat`, and the impure `Utc::now()` /
`Instant::now()` calls become explicit `now` parameters.
-/

namespace DoraTui

/-- Rust strings, embedded as lists of characters. -/
abbrev Str := List Char

/-- Model of Rust `str::trim_end`.  The whitespace predicate covers the ASCII
whitespace characters (space, tab, CR, LF); the lines handled by the decoder
are ASCII SSE framing lines. -/
def rustTrimEnd (s : Str) : Str :=
  (s.reverse.dropWhile Char.isWhitespace).reverse

/-- Model of Rust `str::trim_start` (same whitespace predicate). -/
def rustTrimStart (s : Str) : Str :=
  s.dropWhile Char.isWhitespace

/-- The SSE `data:` marker. -/
def dataMarker : Str := ['d', 'a', 't', 'a', ':']

/-- Model of `Vec::join("\n")` on the accumulation buffer. -/
def newlineJoin : List Str → Str
  | [] => []
  | [s] => s
  | s :: rest => s ++ '\n' :: newlineJoin rest

/-- Embedding of `read_next_event` from `crates/dora-protocol-client/src/lib.rs`
(lines 382-413), the SSE decoder shared by the log stream and the metrics
stream, specialized to error-free line streams (the `Err` arm of the source
returns the I/O error and is not exercised by well-formed text streams).
`strip_prefix("data:")` is unfolded into its prefix test and drop.
Returns the next complete payload together with the unconsumed lines, or
`none` when the stream is exhausted with an empty buffer. -/
def read_next_event (buffer : List Str) : List Str → Option (Str × List Str)
  | [] =>
      if buffer.isEmpty then none else some (newlineJoin buffer, [])
  | line :: rest =>
      let trimmed := rustTrimEnd line
      if trimmed.isEmpty then
        if buffer.isEmpty then read_next_event buffer rest
        else some (newlineJoin buffer, rest)
      else
        if dataMarker.isPrefixOf trimmed then
          read_next_event
            (buffer ++ [rustTrimStart (trimmed.drop dataMarker.length)]) rest
        else
          read_next_event buffer rest

/-- A line the decoder treats as an event separator: blank after right-trim. -/
def isBlankLine (l : Str) : Bool := (rustTrimEnd l).isEmpty

/-- A line the decoder treats as carrying data: right-trimmed, it starts with
the `data:` marker. -/
def isDataLine (l : Str) : Bool := dataMarker.isPrefixOf (rustTrimEnd l)

/-- The payload contribution of one data line, exactly as the decoder computes
it: right-trim the line, drop the marker, strip leading whitespace. -/
def payloadOf (l : Str) : Str :=
  rustTrimStart ((rustTrimEnd l).drop dataMarker.length)

/-! ## URL model

The `url` crate stores an http URL's path as its serialization; internally
(per the WHATWG URL standard it implements) the path is a list of segments,
serialized by writing `/` before each segment.  We embed URLs with the
segment-list path; `segsStr` recovers the serialized path string, and
`splitSlash` is the parse of a path string back into segments.  `urlJoin`
models `Url::join` for path references (the only references the client ever
joins): a reference starting with `/` replaces the path, any other reference
is resolved against the base path shortened by its last segment, with `.` and
`..` segments applied as in the standard (pops saturate at the root). -/

/-- An http(s) URL: scheme, host, optional port, path as WHATWG segments. -/
structure Url where
  scheme : Str
  host : Str
  port : Option Nat
  path : List Str
deriving DecidableEq

/-- Serialize a segment list to the path string: `/` before each segment
(WHATWG serializes path segments with `/`, whatever separator they were
parsed from). -/
def segsStr (segs : List Str) : Str :=
  (segs.map (fun s => '/' :: s)).flatten

/-- Lower an ASCII uppercase letter; other characters unchanged.  WHATWG dot
segment detection is ASCII case-insensitive. -/
def asciiLower (c : Char) : Char :=
  if 'A' ≤ c ∧ c ≤ 'Z' then Char.ofNat (c.toNat + 32) else c

/-- WHATWG path separator for special (http) schemes: `/` or `\`. -/
def isPathSep (c : Char) : Prop := c = '/' ∨ c = '\\'

instance (c : Char) : Decidable (isPathSep c) := by
  unfold isPathSep
  infer_instance

/-- WHATWG single-dot path segment: `.` or an ASCII case-insensitive match
for `%2e`. -/
def isSingleDotSeg (s : Str) : Prop :=
  s.map asciiLower = ['.'] ∨ s.map asciiLower = ['%', '2', 'e']

instance (s : Str) : Decidable (isSingleDotSeg s) := by
  unfold isSingleDotSeg
  infer_instance

/-- WHATWG double-dot path segment: `..` or an ASCII case-insensitive match
for `.%2e`, `%2e.` or `%2e%2e`. -/
def isDoubleDotSeg (s : Str) : Prop :=
  s.map asciiLower = ['.', '.'] ∨ s.map asciiLower = ['.', '%', '2', 'e']
    ∨ s.map asciiLower = ['%', '2', 'e', '.']
    ∨ s.map asciiLower = ['%', '2', 'e', '%', '2', 'e']

instance (s : Str) : Decidable (isDoubleDotSeg s) := by
  unfold isDoubleDotSeg
  infer_instance

/-- Split a path-reference string into segments at `/` or `\` (for special
schemes such as http, WHATWG treats both as path separators). -/
def splitSlash : Str → List Str
  | [] => [[]]
  | c :: rest =>
      if isPathSep c then [] :: splitSlash rest
      else
        match splitSlash rest with
        | [] => [[c]]
        | s :: ss => (c :: s) :: ss

/-- WHATWG `shorten a url's path`: drop the last segment (no-op at root). -/
def shorten (path : List Str) : List Str := path.dropLast

/-- Apply the segments of a path reference to a path stack: a double-dot
segment (including its `%2e`-encoded spellings) pops, a single-dot segment is
dropped, anything else is pushed; a trailing dot segment leaves a trailing
empty segment (the serialized path ends in `/`). -/
def resolveSegs (stack : List Str) : List Str → List Str
  | [] => stack
  | [s] =>
      if isDoubleDotSeg s then shorten stack ++ [[]]
      else if isSingleDotSeg s then stack ++ [[]]
      else stack ++ [s]
  | s :: rest =>
      if isDoubleDotSeg s then resolveSegs (shorten stack) rest
      else if isSingleDotSeg s then resolveSegs stack rest
      else resolveSegs (stack ++ [s]) rest

/-- Model of `Url::join` restricted to path references: an empty reference
returns the base, a reference starting with a path separator is
host-root-absolute and replaces the path, otherwise the reference is resolved
against the base path minus its last segment, with dot segments (literal or
`%2e`-encoded) applied.  Authority (`//…`), scheme-qualified (`sch:…`),
query and fragment references, and characters the WHATWG path serializer
percent-encodes, are outside this model; the theorems below confine
themselves to plain path references (see `plainPathChar`). -/
def urlJoin (base : Url) (ref : Str) : Url :=
  match ref with
  | [] => base
  | c :: rest =>
      if isPathSep c then { base with path := resolveSegs [] (splitSlash rest) }
      else { base with path := resolveSegs (shorten base.path) (splitSlash ref) }

/-- Characters the WHATWG path parser copies into a segment verbatim and that
play no structural role in reference parsing: ASCII alphanumerics and the
RFC 3986 path characters `- _ . ~ ! $ & ( ) * + , ; = @ %` (none of these is
in the WHATWG path percent-encode set).  Excluded in particular: separators
`/` `\`, the scheme/port colon, query/fragment starters `?` `#`, space and
the other percent-encoded code points. -/
def plainPathChar (c : Char) : Bool :=
  c.isAlphanum || c = '-' || c = '_' || c = '.' || c = '~' || c = '!'
    || c = '$' || c = '&' || c = '(' || c = ')' || c = '*' || c = '+'
    || c = ',' || c = ';' || c = '=' || c = '@' || c = '%'

/-- Model of `path.strip_prefix('/').unwrap_or(path)` in `Transport::endpoint`:
remove one leading `/` when present. -/
def stripLeadSlash : Str → Str
  | [] => []
  | c :: rest => if c = '/' then rest else c :: rest

/-- Embedding of `normalize_base_url` (`crates/dora-protocol-client/src/lib.rs`
lines 103-113): if the parsed base URL's serialized path does not end in `/`,
push a `/` (which re-parses as one extra empty segment). -/
def normalize_base_url (u : Url) : Url :=
  if (segsStr u.path).getLast? = some '/' then u
  else { u with path := u.path ++ [[]] }

/-- The transport: an HTTP client bound to a (normalized) base URL.  The
underlying `reqwest` client carries no logic relevant to the claims. -/
structure Transport where
  base : Url
deriving DecidableEq

/-- Embedding of `Transport::endpoint` (lines 79-82): strip one leading `/`
from the requested path, then join it onto the base URL. -/
def Transport.endpoint (t : Transport) (path : Str) : Url :=
  urlJoin t.base (stripLeadSlash path)

/-! ## Data contracts and domain mappers -/

/-- Wire `SystemMetrics` (`libraries/protocol/src/lib.rs`).  `f32` percentages
and load averages are embedded as `Rat`; `u64` byte counts as `Nat`;
`DateTime<Utc>` as `Nat`. -/
structure SystemMetrics where
  timestamp : Nat
  cpu_percent : Rat
  memory_percent : Rat
  total_memory_bytes : Nat
  used_memory_bytes : Nat
  load_average : Option (Rat × Rat × Rat)
deriving DecidableEq

/-- UI-side load averages (`tui_interface::LoadAverages`), fields as used in
`src`. -/
structure LoadAverages where
  one : Rat
  five : Rat
  fifteen : Rat
deriving DecidableEq

/-- UI-side memory metrics (`tui_interface::MemoryMetrics`), restricted to the
fields the mappers set; the remaining fields come from `Default::default()`
and are never read by the code under verification. -/
structure MemoryMetrics where
  total_bytes : Nat
  used_bytes : Nat
  free_bytes : Nat
  usage_percent : Rat
deriving DecidableEq

/-- UI-side system metrics (`tui_interface::SystemMetrics`), restricted to the
fields the mappers set.  `last_update : Option Nat` embeds
`Option<Instant>`. -/
structure UiSystemMetrics where
  cpu_usage : Rat
  memory_usage : Rat
  memory : MemoryMetrics
  load_average : Option LoadAverages
  last_update : Option Nat
deriving DecidableEq

/-- `f64::from` on an `f32` value: exact, so the identity on the `Rat`
embedding. -/
def f64From (x : Rat) : Rat := x

/-- Embedding of `map_metrics_to_ui` (`crates/dora-protocol-client/src/lib.rs`
lines 257-279).  `saturating_sub` on `u64` is truncated subtraction on `Nat`.
`last_update` is not set by this mapper (it stays at its default `None`). -/
def map_metrics_to_ui (snapshot : SystemMetrics) : UiSystemMetrics :=
  { cpu_usage := snapshot.cpu_percent
    memory_usage := snapshot.memory_percent
    memory :=
      { total_bytes := snapshot.total_memory_bytes
        used_bytes := snapshot.used_memory_bytes
        free_bytes := snapshot.total_memory_bytes - snapshot.used_memory_bytes
        usage_percent := snapshot.memory_percent }
    load_average := snapshot.load_average.map
      (fun load => ⟨f64From load.1, f64From load.2.1, f64From load.2.2⟩)
    last_update := none }

/-- Embedding of `convert_metrics` (`binaries/tui/src/tui/bridge.rs` lines
194-219).  The impure `Instant::now()` becomes the explicit `now` argument. -/
def convert_metrics (now : Nat) (protocol : SystemMetrics) : UiSystemMetrics :=
  { cpu_usage := protocol.cpu_percent
    memory_usage := protocol.memory_percent
    memory :=
      { total_bytes := protocol.total_memory_bytes
        used_bytes := protocol.used_memory_bytes
        free_bytes := protocol.total_memory_bytes - protocol.used_memory_bytes
        usage_percent := protocol.memory_percent }
    load_average := protocol.load_average.map
      (fun avg => ⟨f64From avg.1, f64From avg.2.1, f64From avg.2.2⟩)
    last_update := some now }

/-- Wire `NodeSource` (`libraries/protocol/src/lib.rs`). -/
inductive NodeSource where
  | Local (path : Option Str)
  | Git (repo : Str) (rev : Option Str)
  | Wasm (module : Str)
  | Python (module : Str) (environment : Option Str)
  | Unknown
deriving DecidableEq

/-- Embedding of `describe_node_source` (`crates/dora-protocol-client/src/lib.rs`
lines 209-226); `format!` calls are unfolded into character-list appends. -/
def describe_node_source (source : NodeSource) : Option Str :=
  match source with
  | .Local path => path
  | .Git repo rev =>
      some (match rev with
        | some r => repo ++ [' ', '('] ++ r ++ [')']
        | none => repo)
  | .Wasm module => some module
  | .Python module environment =>
      (environment.map
        (fun env => module ++ [' ', '(', 'e', 'n', 'v', ':', ' '] ++ env ++ [')'])).orElse
        (fun _ => some module)
  | .Unknown => none

/-- Wire `UiMode` (`libraries/protocol/src/lib.rs`). -/
inductive UiMode where
  | Auto
  | Cli
  | Tui
  | Minimal
deriving DecidableEq

/-- `format!("{mode:?}").to_lowercase()` on a `UiMode` value. -/
def uiModeName : UiMode → Str
  | .Auto => ['a', 'u', 't', 'o']
  | .Cli => ['c', 'l', 'i']
  | .Tui => ['t', 'u', 'i']
  | .Minimal => ['m', 'i', 'n', 'i', 'm', 'a', 'l']

/-- Wire `UserPreferencesSnapshot` (`libraries/protocol/src/lib.rs`). -/
structure UserPreferencesSnapshot where
  theme : Option Str
  ui_mode : Option UiMode
  auto_refresh : Option Bool
  updated_at : Nat
deriving DecidableEq

/-- UI-side preferences snapshot (`tui_interface::UserPreferencesSnapshot`),
fields as used in `src`. -/
structure UiPreferencesSnapshot where
  theme : Str
  auto_refresh_interval_secs : Nat
  show_system_info : Bool
  default_view : Option Str
deriving DecidableEq

/-- Embedding of `map_preferences_to_ui` (`crates/dora-protocol-client/src/lib.rs`
lines 281-294). -/
def map_preferences_to_ui (snapshot : UserPreferencesSnapshot) :
    UiPreferencesSnapshot :=
  { theme := snapshot.theme.getD ['a', 'u', 't', 'o']
    auto_refresh_interval_secs := if snapshot.auto_refresh.getD true then 1 else 0
    show_system_info := snapshot.auto_refresh.getD true
    default_view := snapshot.ui_mode.map uiModeName }

/-- Embedding of `map_preferences_to_protocol`
(`crates/dora-protocol-client/src/lib.rs` lines 296-304).  `Utc::now()`
becomes the explicit `now` argument. -/
def map_preferences_to_protocol (now : Nat) (prefs : UiPreferencesSnapshot) :
    UserPreferencesSnapshot :=
  { theme := some prefs.theme
    ui_mode := none
    auto_refresh := some (decide (0 < prefs.auto_refresh_interval_secs))
    updated_at := now }

/-- Modelled from the spec: the gateway's handling of a preferences save is
not part of this repository's `src` (only the wire contract is).  Per the
spec's data model, "partial updates allowed; unset fields preserve prior
stored value on save": each `Some` field of the payload replaces the stored
field, each `None` field leaves it unchanged. -/
def apply_preferences_save (stored payload : UserPreferencesSnapshot) :
    UserPreferencesSnapshot :=
  { theme := match payload.theme with
      | some t => some t
      | none => stored.theme
    ui_mode := match payload.ui_mode with
      | some m => some m
      | none => stored.ui_mode
    auto_refresh := match payload.auto_refresh with
      | some b => some b
      | none => stored.auto_refresh
    updated_at := payload.updated_at }

/-- The payload `ProtocolPreferencesStore::save`
(`crates/dora-protocol-client/src/lib.rs` lines 160-165) sends with PUT
`/v1/preferences/ui`: exactly `map_preferences_to_protocol(prefs)`. -/
def ProtocolPreferencesStore.save (now : Nat) (prefs : UiPreferencesSnapshot) :
    UserPreferencesSnapshot :=
  map_preferences_to_protocol now prefs

/-- The UI-facing interface error (`tui_interface::InterfaceError`), variants
as used in `src`. -/
inductive InterfaceError where
  | Message (msg : Str)
  | Unimplemented
deriving DecidableEq

/-- Embedding of `ProtocolLegacyCliService::execute`
(`crates/dora-protocol-client/src/lib.rs` lines 171-179): the remote-backend
legacy command capability ignores its arguments and always fails. -/
def ProtocolLegacyCliService.execute (_argv : List Str) (_working_dir : Str) :
    Except InterfaceError Unit :=
  Except.error InterfaceError.Unimplemented

/-- Client-side error type (`crates/dora-protocol-client/src/error.rs`);
the wrapped foreign errors are embedded as their display strings. -/
inductive ProtocolClientError where
  | InvalidUrl (msg : Str)
  | Http (msg : Str)
  | Deserialize (msg : Str)
  | IoErr (msg : Str)
  | Protocol (msg : Str)
deriving DecidableEq

/-- Embedding of the consumer loop body of `spawn_metrics_stream`
(`binaries/tui/src/tui/bridge.rs` lines 164-191): each stream item is either
a decoded wire snapshot (paired with the `Instant` observed when converting
it) or an error.  An `Ok` item is converted and unconditionally overwrites
the shared slot; an `Err` item logs a warning and breaks out of the loop,
leaving the slot untouched; the loop also ends at natural end of stream.
The mutex around the slot is embedded as a plain write (the slot is the only
shared state and the consumer its only writer). -/
def run_metrics_consumer (slot : Option UiSystemMetrics) :
    List (Nat × Except ProtocolClientError SystemMetrics) →
      Option UiSystemMetrics
  | [] => slot
  | (now, Except.ok raw) :: rest =>
      run_metrics_consumer (some (convert_metrics now raw)) rest
  | (_, Except.error _) :: _ => slot

/-- Embedding of `spawn_metrics_stream` itself: the cache slot starts at
`None`; if opening the metrics stream fails the consumer logs and exits with
the slot still `None`; otherwise the consumer loop runs over the stream's
items.  The returned value is the slot's content once the consumer has
terminated. -/
def spawn_metrics_stream
    (stream : Except ProtocolClientError
      (List (Nat × Except ProtocolClientError SystemMetrics))) :
    Option UiSystemMetrics :=
  match stream with
  | Except.error _ => none
  | Except.ok items => run_metrics_consumer none items

/-- The successfully decoded events of the prefix of the stream that the
consumer actually processes: everything before the first decode/transport
error. -/
def okPrefixEvents :
    List (Nat × Except ProtocolClientError SystemMetrics) →
      List (Nat × SystemMetrics)
  | [] => []
  | (now, Except.ok raw) :: rest => (now, raw) :: okPrefixEvents rest
  | (_, Except.error _) :: _ => []

section DecoderLemmas

/-- A data line is never blank (the marker makes the trimmed line nonempty). -/
lemma isDataLine_not_blank {l : Str} (h : isDataLine l = true) :
    isBlankLine l = false := by
  unfold isDataLine at h
  unfold isBlankLine
  cases htrim : rustTrimEnd l with
  | nil => rw [htrim] at h; simp [dataMarker, List.isPrefixOf] at h
  | cons c cs => simp

/-- Stepping the decoder over a non-blank, non-data line leaves the buffer and
the outcome unchanged. -/
lemma read_next_event_skip {l : Str} (hb : isBlankLine l = false)
    (hd : isDataLine l = false) (buffer : List Str) (rest : List Str) :
    read_next_event buffer (l :: rest) = read_next_event buffer rest := by
  unfold isBlankLine at hb
  unfold isDataLine at hd
  simp only [read_next_event, hb, hd]
  simp [hb, hd]

/-- Stepping the decoder over a data line pushes its payload onto the buffer. -/
lemma read_next_event_data {l : Str} (hd : isDataLine l = true)
    (buffer : List Str) (rest : List Str) :
    read_next_event buffer (l :: rest)
      = read_next_event (buffer ++ [payloadOf l]) rest := by
  have hb : isBlankLine l = false := isDataLine_not_blank hd
  unfold isBlankLine at hb
  unfold isDataLine at hd
  simp only [read_next_event, payloadOf]
  simp [hb, hd]

/-- Stepping the decoder over a blank line with a nonempty buffer emits the
newline-joined buffer. -/
lemma read_next_event_emit {l : Str} (hb : isBlankLine l = true)
    {buffer : List Str} (hne : buffer ≠ []) (rest : List Str) :
    read_next_event buffer (l :: rest) = some (newlineJoin buffer, rest) := by
  unfold isBlankLine at hb
  simp only [read_next_event]
  simp [hb, hne]

/-- Stepping the decoder over a blank line with an empty buffer discards it. -/
lemma read_next_event_blank_empty {l : Str} (hb : isBlankLine l = true)
    (rest : List Str) :
    read_next_event [] (l :: rest) = read_next_event [] rest := by
  unfold isBlankLine at hb
  simp only [read_next_event]
  simp [hb]

/-- With an empty buffer, any run of non-data lines is consumed without
effect: blanks are discarded as separators, other lines are ignored. -/
lemma read_next_event_skip_run {ls : List Str}
    (h : ∀ l ∈ ls, isDataLine l = false) (rest : List Str) :
    read_next_event [] (ls ++ rest) = read_next_event [] rest := by
  induction ls with
  | nil => rfl
  | cons l ls ih =>
      have hl := h l (by simp)
      have hls : ∀ l' ∈ ls, isDataLine l' = false := fun l' hmem => h l' (by simp [hmem])
      rcases hblank : isBlankLine l with _ | _
      · rw [List.cons_append, read_next_event_skip hblank hl, ih hls]
      · rw [List.cons_append, read_next_event_blank_empty hblank, ih hls]

/-- A run of lines that are neither blank nor data lines is skipped whatever
the buffer contents. -/
lemma read_next_event_skip_mid {ls : List Str}
    (h : ∀ l ∈ ls, isBlankLine l = false ∧ isDataLine l = false)
    (buffer : List Str) (rest : List Str) :
    read_next_event buffer (ls ++ rest) = read_next_event buffer rest := by
  induction ls with
  | nil => rfl
  | cons l ls ih =>
      have hl := h l (by simp)
      have hls : ∀ l' ∈ ls, isBlankLine l' = false ∧ isDataLine l' = false :=
        fun l' hmem => h l' (by simp [hmem])
      rw [List.cons_append, read_next_event_skip hl.1 hl.2, ih hls]

/-- A run of data lines pushes payloads onto the buffer in order. -/
lemma read_next_event_data_run {ds : List Str}
    (h : ∀ l ∈ ds, isDataLine l = true) (buffer : List Str) (rest : List Str) :
    read_next_event buffer (ds ++ rest)
      = read_next_event (buffer ++ ds.map payloadOf) rest := by
  induction ds generalizing buffer with
  | nil => simp
  | cons l ds ih =>
      have hl := h l (by simp)
      have hds : ∀ l' ∈ ds, isDataLine l' = true := fun l' hmem => h l' (by simp [hmem])
      rw [List.cons_append, read_next_event_data hl, ih hds]
      simp

/-- With an empty buffer, a stream with no data lines produces no payload. -/
lemma read_next_event_none {ls : List Str}
    (h : ∀ l ∈ ls, isDataLine l = false) :
    read_next_event [] ls = none := by
  have := read_next_event_skip_run h []
  simpa using this

/-- End of stream with a nonempty buffer flushes one final payload. -/
lemma read_next_event_flush {buffer : List Str} (hne : buffer ≠ []) :
    read_next_event buffer [] = some (newlineJoin buffer, []) := by
  simp [read_next_event, hne]

/-- A nonempty run of data lines followed by a blank line decodes to one
payload: the newline-join of the per-line payloads, in order. -/
lemma decode_one_event {ds : List Str} (hne : ds ≠ [])
    (hds : ∀ l ∈ ds, isDataLine l = true) {b : Str}
    (hb : isBlankLine b = true) (rest : List Str) :
    read_next_event [] (ds ++ b :: rest)
      = some (newlineJoin (ds.map payloadOf), rest) := by
  rw [read_next_event_data_run hds]
  have hmapne : ds.map payloadOf ≠ [] := by
    simpa using hne
  rw [List.nil_append]
  exact read_next_event_emit hb hmapne rest

/-- A nonempty run of data lines at end of stream (no trailing blank line)
still flushes exactly one payload. -/
lemma decode_flush_event {ds : List Str} (hne : ds ≠ [])
    (hds : ∀ l ∈ ds, isDataLine l = true) :
    read_next_event [] ds = some (newlineJoin (ds.map payloadOf), []) := by
  have h := read_next_event_data_run hds ([] : List Str) ([] : List Str)
  rw [List.append_nil] at h
  rw [h, List.nil_append]
  exact read_next_event_flush (by simpa using hne)

end DecoderLemmas

section UrlLemmas

lemma segsStr_cons (s : Str) (ss : List Str) :
    segsStr (s :: ss) = '/' :: (s ++ segsStr ss) := by
  simp [segsStr]

lemma segsStr_append (xs ys : List Str) :
    segsStr (xs ++ ys) = segsStr xs ++ segsStr ys := by
  simp [segsStr]

/-- A plain path character is not a path separator. -/
lemma plainPathChar_ne_sep {c : Char} (h : plainPathChar c = true) :
    c ≠ '/' ∧ c ≠ '\\' := by
  constructor <;> rintro rfl <;> exact absurd h (by decide)

lemma splitSlash_ne_nil (s : Str) : splitSlash s ≠ [] := by
  induction s with
  | nil => simp [splitSlash]
  | cons c rest ih =>
      by_cases hc : isPathSep c
      · simp [splitSlash, hc]
      · simp only [splitSlash, if_neg hc]
        cases h : splitSlash rest with
        | nil => simp
        | cons s ss => simp

/-- Splitting a separator-free-or-`/`-separated string and re-serializing the
segments with a leading `/` before each recovers `/` followed by the
string. -/
lemma segsStr_splitSlash (q : Str)
    (hq : ∀ c ∈ q, c = '/' ∨ plainPathChar c = true) :
    segsStr (splitSlash q) = '/' :: q := by
  induction q with
  | nil => rfl
  | cons c rest ih =>
      have hrest : ∀ x ∈ rest, x = '/' ∨ plainPathChar x = true :=
        fun x hx => hq x (by simp [hx])
      rcases hq c (by simp) with rfl | hpc
      · have hsep : isPathSep '/' := Or.inl rfl
        simp [splitSlash, if_pos hsep, segsStr_cons, ih hrest]
      · have hsep : ¬ isPathSep c :=
          not_or.mpr ⟨(plainPathChar_ne_sep hpc).1, (plainPathChar_ne_sep hpc).2⟩
        simp only [splitSlash, if_neg hsep]
        cases h : splitSlash rest with
        | nil => exact absurd h (splitSlash_ne_nil rest)
        | cons s ss =>
            have ih2 := ih hrest
            rw [h, segsStr_cons] at ih2
            have h2 : s ++ segsStr ss = rest := by simpa using ih2
            rw [segsStr_cons]
            simp [h2]

/-- A reference free of dot segments (literal or `%2e`-encoded) is pushed
verbatim onto the path stack. -/
lemma resolveSegs_no_dots (segs : List Str) :
    ∀ stack, segs ≠ [] → (∀ s ∈ segs, ¬ isSingleDotSeg s ∧ ¬ isDoubleDotSeg s) →
      resolveSegs stack segs = stack ++ segs := by
  induction segs with
  | nil => intro stack hne _; exact absurd rfl hne
  | cons s rest ih =>
      intro stack _ h
      have hs := h s (by simp)
      cases rest with
      | nil => simp [resolveSegs, if_neg hs.1, if_neg hs.2]
      | cons t ts =>
          have hrest : ∀ x ∈ t :: ts, ¬ isSingleDotSeg x ∧ ¬ isDoubleDotSeg x :=
            fun x hx => h x (by simp [hx])
          simp only [resolveSegs, if_neg hs.2, if_neg hs.1]
          rw [ih (stack ++ [s]) (by simp) hrest]
          simp

/-- Under the parse invariant that segments contain no `/`, the serialized
path ends in `/` exactly when the last segment is empty. -/
lemma ends_slash_iff (p : List Str) (hseg : ∀ s ∈ p, '/' ∉ s) :
    (segsStr p).getLast? = some '/' ↔ p.getLast? = some ([] : Str) := by
  obtain rfl | ⟨xs, s, rfl⟩ := List.eq_nil_or_concat p
  · simp [segsStr]
  · have hsl : '/' ∉ s := hseg s (by simp)
    rw [List.concat_eq_append]
    obtain rfl | ⟨ys, c, rfl⟩ := List.eq_nil_or_concat s
    · rw [segsStr_append]
      have h1 : segsStr [([] : Str)] = ['/'] := rfl
      rw [h1, List.getLast?_concat, List.getLast?_concat]
      simp
    · rw [List.concat_eq_append] at hsl ⊢
      have hc : c ≠ '/' := fun hcontr => hsl (by simp [hcontr])
      rw [segsStr_append]
      have h1 : segsStr [ys ++ [c]] = ('/' :: ys) ++ [c] := by
        rw [segsStr_cons]
        simp [segsStr]
      rw [h1, ← List.append_assoc, List.getLast?_concat, List.getLast?_concat]
      simp [hc]

/-- The source's coercion indeed makes every normalized base URL's serialized
path end in `/`. -/
lemma normalize_ends_slash (u : Url) :
    (segsStr (normalize_base_url u).path).getLast? = some '/' := by
  by_cases h : (segsStr u.path).getLast? = some '/'
  · simp [normalize_base_url, h]
  · simp only [normalize_base_url, if_neg h]
    rw [segsStr_append]
    have h1 : segsStr [([] : Str)] = ['/'] := rfl
    rw [h1]
    exact List.getLast?_concat _

/-- A normalized base URL's last path segment is the empty segment. -/
lemma normalize_last (u : Url) (hseg : ∀ s ∈ u.path, '/' ∉ s) :
    (normalize_base_url u).path.getLast? = some ([] : Str) := by
  by_cases h : (segsStr u.path).getLast? = some '/'
  · simp only [normalize_base_url, if_pos h]
    exact (ends_slash_iff u.path hseg).mp h
  · simp only [normalize_base_url, if_neg h]
    exact List.getLast?_concat _

lemma stripLeadSlash_of_head {q : Str} (h : q.head? ≠ some '/') :
    stripLeadSlash q = q := by
  cases q with
  | nil => rfl
  | cons c rest =>
      have hc : c ≠ '/' := by simpa using h
      simp [stripLeadSlash, hc]

/-- Joining a nonempty, non-absolute reference made of plain path characters
and `/` separators, free of dot segments, onto a base whose path ends in the
empty segment resolves strictly underneath the base: the resulting serialized
path is the base's serialized path followed by the reference. -/
lemma endpoint_under {base : Url} (hlast : base.path.getLast? = some ([] : Str))
    {q : Str} (hne : q ≠ [])
    (hchars : ∀ c ∈ q, c = '/' ∨ plainPathChar c = true)
    (hhead : q.head? ≠ some '/')
    (hdots : ∀ s ∈ splitSlash q, ¬ isSingleDotSeg s ∧ ¬ isDoubleDotSeg s) :
    segsStr ((urlJoin base q).path) = segsStr base.path ++ q := by
  obtain ⟨c, rest, rfl⟩ : ∃ c rest, q = c :: rest := by
    cases q with
    | nil => exact absurd rfl hne
    | cons c rest => exact ⟨c, rest, rfl⟩
  have hc : c ≠ '/' := by simpa using hhead
  have hpc : plainPathChar c = true := by
    rcases hchars c (by simp) with rfl | hpc
    · exact absurd rfl hc
    · exact hpc
  have hsep : ¬ isPathSep c :=
    not_or.mpr ⟨(plainPathChar_ne_sep hpc).1, (plainPathChar_ne_sep hpc).2⟩
  simp only [urlJoin, if_neg hsep]
  rw [resolveSegs_no_dots _ _ (splitSlash_ne_nil _) hdots]
  obtain hnil | ⟨xs, s, hconcat⟩ := List.eq_nil_or_concat base.path
  · rw [hnil] at hlast; simp at hlast
  · rw [List.concat_eq_append] at hconcat
    have hs : s = [] := by
      rw [hconcat, List.getLast?_concat] at hlast
      simpa using hlast
    subst hs
    rw [hconcat]
    have hshort : shorten (xs ++ [([] : Str)]) = xs := List.dropLast_concat
    rw [hshort, segsStr_append, segsStr_append, segsStr_splitSlash _ hchars]
    have h1 : segsStr [([] : Str)] = ['/'] := rfl
    rw [h1]
    simp

end UrlLemmas

/-- **C4 (amended).**  For every parsable base URL (parse invariant: path
segments contain no `/`), normalization yields a URL whose serialized path
ends in `/`; and every relative path that, after the single leading-slash
strip, is nonempty, consists of `/` separators and plain path characters
(so no `\` separators, no scheme colon, no query/fragment starters, nothing
the path serializer percent-encodes), does not itself start with a
separator, and contains no single- or double-dot segments — literal or
`%2e`-encoded, ASCII case-insensitively — joins to a URL whose path is the
normalized base path followed by that relative path: it never escapes above
the configured base.  (Amended from the frozen claim: a relative path
containing dot-dot segments, e.g. `../x`, does escape above the base; see
the counterexample.) -/
theorem c4_base_url_normalization (u : Url)
    (hseg : ∀ s ∈ u.path, '/' ∉ s) :
    (segsStr (normalize_base_url u).path).getLast? = some '/'
    ∧ (∀ p : Str, stripLeadSlash p ≠ [] →
        (∀ c ∈ stripLeadSlash p, c = '/' ∨ plainPathChar c = true) →
        (stripLeadSlash p).head? ≠ some '/' →
        (∀ s ∈ splitSlash (stripLeadSlash p),
          ¬ isSingleDotSeg s ∧ ¬ isDoubleDotSeg s) →
        segsStr ((Transport.endpoint ⟨normalize_base_url u⟩ p).path)
          = segsStr (normalize_base_url u).path ++ stripLeadSlash p) := by
  refine ⟨normalize_ends_slash u, ?_⟩
  intro p h1 h2 h3 h4
  exact endpoint_under (normalize_last u hseg) h1 h2 h3 h4

/-- **C4 counterexample.**  Joining the relative path `../x` onto the
normalized base `http://host/api/` yields path `/x`, which escapes above the
configured base `/api/`: the frozen claim's "joining any relative path never
escapes above the configured base" is false as stated. -/
theorem c4_dotdot_escape_counterexample :
    segsStr ((Transport.endpoint
        ⟨normalize_base_url
          ⟨['h', 't', 't', 'p'], ['h', 'o', 's', 't'], none, [['a', 'p', 'i']]⟩⟩
        ['.', '.', '/', 'x']).path)
      = ['/', 'x']
    ∧ segsStr (normalize_base_url
        ⟨['h', 't', 't', 'p'], ['h', 'o', 's', 't'], none,
          [['a', 'p', 'i']]⟩).path
      = ['/', 'a', 'p', 'i', '/']
    ∧ List.isPrefixOf
        (segsStr (normalize_base_url
          ⟨['h', 't', 't', 'p'], ['h', 'o', 's', 't'], none,
            [['a', 'p', 'i']]⟩).path)
        (segsStr ((Transport.endpoint
          ⟨normalize_base_url
            ⟨['h', 't', 't', 'p'], ['h', 'o', 's', 't'], none,
              [['a', 'p', 'i']]⟩⟩
          ['.', '.', '/', 'x']).path))
      = false := by
  refine ⟨by decide, by decide, by decide⟩

/-- Witness for `c4_base_url_normalization`: base `http://host/api` with the
capability path `/v1/dataflows`. -/
theorem c4_base_url_normalization_witness :
    (segsStr (normalize_base_url
        ⟨['h', 't', 't', 'p'], ['h', 'o', 's', 't'], none,
          [['a', 'p', 'i']]⟩).path).getLast? = some '/'
    ∧ segsStr ((Transport.endpoint
        ⟨normalize_base_url
          ⟨['h', 't', 't', 'p'], ['h', 'o', 's', 't'], none, [['a', 'p', 'i']]⟩⟩
        ['/', 'v', '1', '/', 'd', 'a', 't', 'a', 'f', 'l', 'o', 'w', 's']).path)
      = segsStr (normalize_base_url
          ⟨['h', 't', 't', 'p'], ['h', 'o', 's', 't'], none,
            [['a', 'p', 'i']]⟩).path
        ++ stripLeadSlash
            ['/', 'v', '1', '/', 'd', 'a', 't', 'a', 'f', 'l', 'o', 'w', 's'] := by
  have h := c4_base_url_normalization
    ⟨['h', 't', 't', 'p'], ['h', 'o', 's', 't'], none, [['a', 'p', 'i']]⟩
    (by decide)
  exact ⟨h.1, h.2 ['/', 'v', '1', '/', 'd', 'a', 't', 'a', 'f', 'l', 'o', 'w', 's']
    (by decide) (by decide) (by decide) (by decide)⟩

/-- **C9.**  `Transport::endpoint` strips a single leading `/` before the
relative join; hence a capability path written with one leading `/` (a plain
path reference: `/` separators and plain path characters only, no dot
segments — literal or `%2e`-encoded) behaves exactly like its slash-less
form and, on a base whose path ends in `/`, resolves underneath the base
path rather than replacing it. -/
theorem c9_endpoint_strips_leading_slash :
    (∀ (t : Transport) (p : Str),
        Transport.endpoint t p = urlJoin t.base (stripLeadSlash p))
    ∧ (∀ (t : Transport) (q : Str),
        t.base.path.getLast? = some ([] : Str) →
        q ≠ [] →
        (∀ c ∈ q, c = '/' ∨ plainPathChar c = true) →
        q.head? ≠ some '/' →
        (∀ s ∈ splitSlash q, ¬ isSingleDotSeg s ∧ ¬ isDoubleDotSeg s) →
        Transport.endpoint t ('/' :: q) = Transport.endpoint t q
        ∧ segsStr ((Transport.endpoint t ('/' :: q)).path)
            = segsStr t.base.path ++ q) := by
  refine ⟨fun t p => rfl, fun t q hlast hne hchars hhead hdots => ?_⟩
  have hstrip : stripLeadSlash ('/' :: q) = q := by simp [stripLeadSlash]
  have hq : stripLeadSlash q = q := stripLeadSlash_of_head hhead
  constructor
  · show urlJoin t.base (stripLeadSlash ('/' :: q))
        = urlJoin t.base (stripLeadSlash q)
    rw [hstrip, hq]
  · show segsStr ((urlJoin t.base (stripLeadSlash ('/' :: q))).path) = _
    rw [hstrip]
    exact endpoint_under hlast hne hchars hhead hdots

/-- Witness for `c9_endpoint_strips_leading_slash`: the default base
`http://127.0.0.1:7267/` with the coordinator path `/v1/dataflows` used by
`list_dataflows`. -/
theorem c9_endpoint_strips_leading_slash_witness :
    Transport.endpoint
        ⟨⟨['h', 't', 't', 'p'], ['1', '2', '7', '.', '0', '.', '0', '.', '1'],
          some 7267, [[]]⟩⟩
        ('/' :: ['v', '1', '/', 'd', 'a', 't', 'a', 'f', 'l', 'o', 'w', 's'])
      = Transport.endpoint
          ⟨⟨['h', 't', 't', 'p'], ['1', '2', '7', '.', '0', '.', '0', '.', '1'],
            some 7267, [[]]⟩⟩
          ['v', '1', '/', 'd', 'a', 't', 'a', 'f', 'l', 'o', 'w', 's']
    ∧ segsStr ((Transport.endpoint
        ⟨⟨['h', 't', 't', 'p'], ['1', '2', '7', '.', '0', '.', '0', '.', '1'],
          some 7267, [[]]⟩⟩
        ('/' :: ['v', '1', '/', 'd', 'a', 't', 'a', 'f', 'l', 'o', 'w', 's'])).path)
      = segsStr ((⟨⟨['h', 't', 't', 'p'],
          ['1', '2', '7', '.', '0', '.', '0', '.', '1'],
          some 7267, [[]]⟩⟩ : Transport).base.path)
        ++ ['v', '1', '/', 'd', 'a', 't', 'a', 'f', 'l', 'o', 'w', 's'] := by
  exact c9_endpoint_strips_leading_slash.2
    ⟨⟨['h', 't', 't', 'p'], ['1', '2', '7', '.', '0', '.', '0', '.', '1'],
      some 7267, [[]]⟩⟩
    ['v', '1', '/', 'd', 'a', 't', 'a', 'f', 'l', 'o', 'w', 's']
    (by decide) (by decide) (by decide) (by decide) (by decide)

/-- **C2 (amended).**  For every input line stream containing exactly one
well-formed event — arbitrary non-`data:` lines, one `data:` line `d`,
then non-blank non-`data:` lines, then a blank line, then non-`data:`
lines — the decoder emits exactly one payload, equal to the right-trimmed
line's content after the marker with the marker's leading whitespace
stripped; lines that are neither blank nor `data:`-prefixed contribute
nothing to any emitted payload.  (Amended from the frozen claim: the code
right-trims each line before the marker test, so trailing whitespace of the
`data:` line is also removed from the payload; see the counterexample.) -/
theorem c2_single_event_payload
    (pre mid post : List Str) (d b : Str)
    (hpre : ∀ l ∈ pre, isDataLine l = false)
    (hmid : ∀ l ∈ mid, isBlankLine l = false ∧ isDataLine l = false)
    (hpost : ∀ l ∈ post, isDataLine l = false)
    (hd : isDataLine d = true) (hb : isBlankLine b = true) :
    read_next_event [] (pre ++ d :: (mid ++ b :: post))
        = some (payloadOf d, post)
    ∧ read_next_event [] post = none := by
  constructor
  · rw [read_next_event_skip_run hpre, read_next_event_data hd,
      List.nil_append, read_next_event_skip_mid hmid,
      read_next_event_emit hb (by simp)]
    rfl
  · exact read_next_event_none hpost

/-- **C2 counterexample.**  The frozen claim predicts that the payload of the
single event equals the line's content after the marker with only the
marker's *leading* whitespace stripped.  For the line `"data: x "` (one
trailing space) the decoder emits `"x"`, while the claim predicts `"x "`:
the code right-trims every line before processing it. -/
theorem c2_trailing_whitespace_counterexample :
    read_next_event [] [['d', 'a', 't', 'a', ':', ' ', 'x', ' '], ([] : Str)]
        = some (['x'], [])
    ∧ rustTrimStart
        (List.drop dataMarker.length ['d', 'a', 't', 'a', ':', ' ', 'x', ' '])
        = ['x', ' ']
    ∧ (['x'] : Str) ≠ ['x', ' '] := by
  refine ⟨by decide, by decide, by decide⟩

/-- Witness for `c2_single_event_payload`: a concrete stream holding one event
`data: hi` surrounded by an `ev` line, a `z` line and a whitespace-only line. -/
theorem c2_single_event_payload_witness :
    read_next_event []
        ([['e', 'v']] ++ ['d', 'a', 't', 'a', ':', ' ', 'h', 'i']
          :: ([['z']] ++ ([] : Str) :: [[' ']]))
        = some (['h', 'i'], [[' ']])
    ∧ read_next_event [] [[' ']] = none := by
  have h := c2_single_event_payload [['e', 'v']] [['z']] [[' ']]
    ['d', 'a', 't', 'a', ':', ' ', 'h', 'i'] []
    (by decide) (by decide) (by decide) (by decide) (by decide)
  exact ⟨by rw [h.1]; decide, h.2⟩

/-- **C3.**  Shape properties of the stream decoder: a multi-line event
decodes to the newline-join of its marker-stripped lines in order; two
consecutive well-formed events decode to two payloads in arrival order; the
empty stream decodes to zero payloads; a stream ending right after `data:`
lines with no trailing blank line still flushes exactly one final payload. -/
theorem c3_stream_decoding_shapes :
    (∀ (ds : List Str) (b : Str) (rest : List Str), ds ≠ [] →
        (∀ l ∈ ds, isDataLine l = true) → isBlankLine b = true →
        read_next_event [] (ds ++ b :: rest)
          = some (newlineJoin (ds.map payloadOf), rest))
    ∧ (∀ (ds1 ds2 : List Str) (b1 b2 : Str), ds1 ≠ [] → ds2 ≠ [] →
        (∀ l ∈ ds1, isDataLine l = true) → (∀ l ∈ ds2, isDataLine l = true) →
        isBlankLine b1 = true → isBlankLine b2 = true →
        read_next_event [] (ds1 ++ b1 :: (ds2 ++ [b2]))
            = some (newlineJoin (ds1.map payloadOf), ds2 ++ [b2])
        ∧ read_next_event [] (ds2 ++ [b2])
            = some (newlineJoin (ds2.map payloadOf), []))
    ∧ read_next_event [] ([] : List Str) = none
    ∧ (∀ ds : List Str, ds ≠ [] → (∀ l ∈ ds, isDataLine l = true) →
        read_next_event [] ds = some (newlineJoin (ds.map payloadOf), [])) := by
  refine ⟨?_, ?_, rfl, ?_⟩
  · intro ds b rest hne hds hb
    exact decode_one_event hne hds hb rest
  · intro ds1 ds2 b1 b2 hne1 hne2 hds1 hds2 hb1 hb2
    refine ⟨decode_one_event hne1 hds1 hb1 _, ?_⟩
    have h := decode_one_event hne2 hds2 hb2 ([] : List Str)
    simpa using h
  · intro ds hne hds
    exact decode_flush_event hne hds

/-- Witness for `c3_stream_decoding_shapes`: two-line event `data:a` /
`data:b`, two consecutive one-line events, and a blank-less final event. -/
theorem c3_stream_decoding_shapes_witness :
    read_next_event []
        ([['d', 'a', 't', 'a', ':', 'a'], ['d', 'a', 't', 'a', ':', 'b']]
          ++ ([] : Str) :: [])
        = some (['a', '\n', 'b'], [])
    ∧ read_next_event []
        ([['d', 'a', 't', 'a', ':', 'a']]
          ++ ([] : Str) :: ([['d', 'a', 't', 'a', ':', 'b']] ++ [([] : Str)]))
        = some (['a'], [['d', 'a', 't', 'a', ':', 'b'], ([] : Str)])
    ∧ read_next_event [] ([['d', 'a', 't', 'a', ':', 'b']] ++ [([] : Str)])
        = some (['b'], [])
    ∧ read_next_event [] [['d', 'a', 't', 'a', ':', 'c']]
        = some (['c'], []) := by
  have ha := c3_stream_decoding_shapes.1
    [['d', 'a', 't', 'a', ':', 'a'], ['d', 'a', 't', 'a', ':', 'b']] [] []
    (by decide) (by decide) (by decide)
  have hb := c3_stream_decoding_shapes.2.1
    [['d', 'a', 't', 'a', ':', 'a']] [['d', 'a', 't', 'a', ':', 'b']] [] []
    (by decide) (by decide) (by decide) (by decide) (by decide) (by decide)
  have hd := c3_stream_decoding_shapes.2.2.2 [['d', 'a', 't', 'a', ':', 'c']]
    (by decide) (by decide)
  exact ⟨by rw [ha]; decide, by rw [hb.1]; decide, by rw [hb.2]; decide,
    by rw [hd]; decide⟩

section ConsumerLemmas

/-- The consumer loop is a left fold that either retains its slot (no `Ok`
item before the first error) or holds the conversion of the last `Ok` item of
the processed prefix. -/
lemma run_metrics_consumer_eq
    (items : List (Nat × Except ProtocolClientError SystemMetrics)) :
    ∀ slot, run_metrics_consumer slot items
      = (match (okPrefixEvents items).getLast? with
          | some p => some (convert_metrics p.1 p.2)
          | none => slot) := by
  induction items with
  | nil => intro slot; rfl
  | cons it rest ih =>
      intro slot
      obtain ⟨now, res⟩ := it
      cases res with
      | error e => rfl
      | ok raw =>
          show run_metrics_consumer (some (convert_metrics now raw)) rest = _
          rw [ih]
          cases h : okPrefixEvents rest with
          | nil => simp [okPrefixEvents, h]
          | cons x xs =>
              simp only [okPrefixEvents, h, List.getLast?_cons_cons]
              cases hgl : (x :: xs).getLast? with
              | none => simp at hgl
              | some p => rfl

end ConsumerLemmas

/-- **C1.**  The metrics consumer's shared slot invariant: on a stream whose
processed prefix decoded the events of `okPrefixEvents items`, the slot ends
holding exactly the UI-mapped form of the *last* successfully decoded event
(or `None` when no event was decoded) — never an earlier snapshot or an
average; a decode/transport error stops the consumer without clearing the
slot; a failed stream open leaves the slot `None`. -/
theorem c1_metrics_cache_latest_snapshot :
    (∀ e, spawn_metrics_stream (Except.error e) = none)
    ∧ (∀ items, spawn_metrics_stream (Except.ok items)
        = (okPrefixEvents items).getLast?.map
            (fun p => convert_metrics p.1 p.2))
    ∧ (∀ slot now err rest,
        run_metrics_consumer slot ((now, Except.error err) :: rest) = slot) := by
  refine ⟨fun e => rfl, fun items => ?_, fun slot now err rest => rfl⟩
  show run_metrics_consumer none items = _
  rw [run_metrics_consumer_eq items none]
  cases (okPrefixEvents items).getLast? <;> rfl

/-- **C5.**  Mapping a wire preferences snapshot to the UI form collapses the
three-state `auto_refresh` flag to the interval 1 (absent or `true`) or 0
(`false`) and to no other value; mapping back to wire form recovers `Some` of
exactly that boolean — the round trip recovers only the boolean, never a
numeric interval. -/
theorem c5_auto_refresh_round_trip (s : UserPreferencesSnapshot) (now : Nat) :
    (map_preferences_to_ui s).auto_refresh_interval_secs
        = (if s.auto_refresh.getD true then 1 else 0)
    ∧ ((map_preferences_to_ui s).auto_refresh_interval_secs = 0
        ∨ (map_preferences_to_ui s).auto_refresh_interval_secs = 1)
    ∧ (map_preferences_to_protocol now (map_preferences_to_ui s)).auto_refresh
        = some (s.auto_refresh.getD true) := by
    refine ⟨rfl, ?_, ?_⟩
    · cases h : s.auto_refresh.getD true <;> simp [map_preferences_to_ui, h]
    · cases h : s.auto_refresh.getD true <;>
        simp [map_preferences_to_ui, map_preferences_to_protocol, h]

/-- **C6.**  Both metric mappers compute `free_bytes` as
`total_memory_bytes - used_memory_bytes` with saturating (truncated)
subtraction; when `used > total` the result is 0, and it never exceeds
`total` (no negative or wrapped value). -/
theorem c6_free_bytes_saturating (s : SystemMetrics) (now : Nat) :
    (map_metrics_to_ui s).memory.free_bytes
        = s.total_memory_bytes - s.used_memory_bytes
    ∧ (convert_metrics now s).memory.free_bytes
        = s.total_memory_bytes - s.used_memory_bytes
    ∧ (s.total_memory_bytes < s.used_memory_bytes →
        (map_metrics_to_ui s).memory.free_bytes = 0
        ∧ (convert_metrics now s).memory.free_bytes = 0)
    ∧ (map_metrics_to_ui s).memory.free_bytes ≤ s.total_memory_bytes
    ∧ (convert_metrics now s).memory.free_bytes ≤ s.total_memory_bytes := by
  refine ⟨rfl, rfl, fun h => ⟨?_, ?_⟩, ?_, ?_⟩
  · show s.total_memory_bytes - s.used_memory_bytes = 0
    omega
  · show s.total_memory_bytes - s.used_memory_bytes = 0
    omega
  · show s.total_memory_bytes - s.used_memory_bytes ≤ s.total_memory_bytes
    omega
  · show s.total_memory_bytes - s.used_memory_bytes ≤ s.total_memory_bytes
    omega

/-- Witness for `c6_free_bytes_saturating`: a snapshot reporting 10 used
bytes out of 4 total maps to 0 free bytes. -/
theorem c6_free_bytes_saturating_witness :
    (⟨0, 0, 0, 4, 10, none⟩ : SystemMetrics).total_memory_bytes
        < (⟨0, 0, 0, 4, 10, none⟩ : SystemMetrics).used_memory_bytes
    ∧ (map_metrics_to_ui ⟨0, 0, 0, 4, 10, none⟩).memory.free_bytes = 0 :=
  ⟨by decide,
    ((c6_free_bytes_saturating ⟨0, 0, 0, 4, 10, none⟩ 0).2.2.1 (by decide)).1⟩

/-- **C7.**  The node-provenance display mapping: local path as-is (including
its absence), git as `"{repo} ({rev})"` when a revision is present else the
repo alone, wasm module name as-is, interpreted-language module as
`"{module} (env: {environment})"` when an environment is present else the
module alone, and no display string for unknown provenance. -/
theorem c7_node_source_display :
    (∀ path, describe_node_source (NodeSource.Local path) = path)
    ∧ (∀ repo rev, describe_node_source (NodeSource.Git repo (some rev))
        = some (repo ++ [' ', '('] ++ rev ++ [')']))
    ∧ (∀ repo, describe_node_source (NodeSource.Git repo none) = some repo)
    ∧ (∀ module, describe_node_source (NodeSource.Wasm module) = some module)
    ∧ (∀ module env,
        describe_node_source (NodeSource.Python module (some env))
          = some (module ++ [' ', '(', 'e', 'n', 'v', ':', ' '] ++ env ++ [')']))
    ∧ (∀ module, describe_node_source (NodeSource.Python module none)
        = some module)
    ∧ describe_node_source NodeSource.Unknown = none := by
  exact ⟨fun path => rfl, fun repo rev => rfl, fun repo => rfl,
    fun module => rfl, fun module env => rfl, fun module => rfl, rfl⟩

/-- **C8.**  For every argv list and working directory, the remote-backend
legacy command capability fails with `Unimplemented`; it never succeeds. -/
theorem c8_legacy_execute_unimplemented :
    (∀ (argv : List Str) (working_dir : Str),
        ProtocolLegacyCliService.execute argv working_dir
          = Except.error InterfaceError.Unimplemented)
    ∧ (∀ (argv : List Str) (working_dir : Str) (u : Unit),
        ProtocolLegacyCliService.execute argv working_dir ≠ Except.ok u) := by
  exact ⟨fun _ _ => rfl, fun _ _ u h => Except.noConfusion h⟩

/-- **C10.**  The wire payload a remote preferences save sends always has
`ui_mode = None` (with `theme` and `auto_refresh` always `Some`), so under
the wire contract's preserve-unset-fields semantics a save never changes the
stored interface mode, whatever the UI snapshot's `default_view` contains. -/
theorem c10_save_never_changes_ui_mode
    (prefs : UiPreferencesSnapshot) (now : Nat)
    (stored : UserPreferencesSnapshot) :
    (ProtocolPreferencesStore.save now prefs).ui_mode = none
    ∧ (ProtocolPreferencesStore.save now prefs).theme = some prefs.theme
    ∧ (ProtocolPreferencesStore.save now prefs).auto_refresh
        = some (decide (0 < prefs.auto_refresh_interval_secs))
    ∧ (apply_preferences_save stored
        (ProtocolPreferencesStore.save now prefs)).ui_mode = stored.ui_mode := by
  exact ⟨rfl, rfl, rfl, rfl⟩

end DoraTui
